import Mathlib

/-!
Verification of the volume-assembly engine of the vtk-dicom repository
(`Source/vtkDICOMReader.h`, `vtkNIFTIReader.h`).  The repository ships only
the class declarations; the method bodies (`SortFiles`, `ValidateStructure`,
`RescaleBuffer`, `UnpackBits`, `YBRToRGB`, the NIFTI `RequestInformation`)
are specified by the header documentation and by the accompanying design
specification, and each is modelled here from that specification.
-/

namespace VtkDicom

/-! ## Vectors over ℚ (image position / orientation attributes) -/

/-- A 3-vector of rationals, modelling the DICOM spatial attributes
`ImagePositionPatient` and `ImageOrientationPatient`. -/
abbrev Vec3 := ℚ × ℚ × ℚ

/-- Euclidean dot product of two 3-vectors. -/
def dot (a b : Vec3) : ℚ := a.1 * b.1 + a.2.1 * b.2.1 + a.2.2 * b.2.2

/-- Cross product of two 3-vectors; the normal of the image plane is the
cross product of the row and column orientation vectors. -/
def cross (a b : Vec3) : Vec3 :=
  (a.2.1 * b.2.2 - a.2.2 * b.2.1,
   a.2.2 * b.1 - a.1 * b.2.2,
   a.1 * b.2.1 - a.2.1 * b.1)

/-- Negation of a 3-vector. -/
def vneg (a : Vec3) : Vec3 := (-a.1, -a.2.1, -a.2.2)

/-- Sum of two 3-vectors. -/
def vadd (a b : Vec3) : Vec3 := (a.1 + b.1, a.2.1 + b.2.1, a.2.2 + b.2.2)

/-- Scalar multiple of a 3-vector. -/
def vsmul (c : ℚ) (a : Vec3) : Vec3 := (c * a.1, c * a.2.1, c * a.2.2)

/-! ## Data model (spec §3) -/

/-- One decodable image frame within a file (spec §3 FrameRecord): carries
the spatial attributes, the stack identifier, the acquisition/trigger time,
and the per-frame image and rescale attributes. -/
structure FrameRecord where
  fileIdx : Nat
  frameIdx : Nat
  pos : Vec3
  orientRow : Vec3
  orientCol : Vec3
  time : ℚ
  stackId : String
  rows : Nat
  cols : Nat
  samples : Nat
  bits : Nat
  slope : ℚ
  intercept : ℚ
  deriving DecidableEq

/-- Projection of the image position onto the normal axis of the image
orientation (spec §4.1: frames are sorted "by the projection of image
position onto the orientation's normal axis"). -/
def zproj (f : FrameRecord) : ℚ := dot (cross f.orientRow f.orientCol) f.pos

/-- Modelled from the spec: the comparison used by the default slice sorter
(the body of `vtkDICOMReader::SortFiles` is not in `src/`).  Spec §4.1:
sort by the normal-axis projection of image position, break ties by
acquisition/trigger time; the remaining tie-break (file/frame input order)
is obtained by using a stable sort. -/
def frameLE (a b : FrameRecord) : Prop :=
  zproj a < zproj b ∨ (zproj a = zproj b ∧ a.time ≤ b.time)

instance : DecidableRel frameLE := fun a b => by
  unfold frameLE; infer_instance

instance : IsTotal FrameRecord frameLE where
  total a b := by
    unfold frameLE
    rcases lt_trichotomy (zproj a) (zproj b) with h | h | h
    · exact Or.inl (Or.inl h)
    · rcases le_total a.time b.time with ht | ht
      · exact Or.inl (Or.inr ⟨h, ht⟩)
      · exact Or.inr (Or.inr ⟨h.symm, ht⟩)
    · exact Or.inr (Or.inl h)

instance : IsTrans FrameRecord frameLE where
  trans a b c hab hbc := by
    unfold frameLE at hab hbc ⊢
    rcases hab with h1 | ⟨e1, t1⟩
    · rcases hbc with h2 | ⟨e2, _⟩
      · exact Or.inl (h1.trans h2)
      · exact Or.inl (lt_of_lt_of_le h1 (le_of_eq e2))
    · rcases hbc with h2 | ⟨e2, t2⟩
      · exact Or.inl (lt_of_le_of_lt (le_of_eq e1) h2)
      · exact Or.inr ⟨e1.trans e2, t1.trans t2⟩

/-- Modelled from the spec: the default slice sort (body of
`vtkDICOMReader::SortFiles` is not in `src/`).  A stable insertion sort
under `frameLE`, so equal keys keep their input order (spec §4.1:
"stable, deterministic"). -/
def sortFrames (frames : List FrameRecord) : List FrameRecord :=
  List.insertionSort frameLE frames

/-! ## Stack resolution (spec §4.6, header `SetDesiredStackID`) -/

/-- The stack identifier of the first frame encountered ("" for no
frames). -/
def firstStackId : List FrameRecord → String
  | [] => ""
  | f :: _ => f.stackId

/-- Modelled from the spec: active-stack resolution (spec §4.6: "explicit
selection by stack identifier, else the first stack encountered"; header
`SetDesiredStackID`: "by default the reader will only load the first
stack"). -/
def activeStackId (desired : String) (frames : List FrameRecord) : String :=
  if desired ≠ "" then desired else firstStackId frames

/-- The frames belonging to the active stack. -/
def stackFrames (desired : String) (frames : List FrameRecord) : List FrameRecord :=
  frames.filter (fun f => decide (f.stackId = activeStackId desired frames))

/-- Modelled from the spec: `vtkDICOMReader::SortFiles` (body not in
`src/`): restrict to the active stack, then sort spatially. -/
def sortFiles (desired : String) (frames : List FrameRecord) : List FrameRecord :=
  sortFrames (stackFrames desired frames)

/-- Modelled from the spec: `vtkDICOMReader::NoSortFiles` (body not in
`src/`): "Do not sort the files, just build the arrays" — the slices list
the files in exact input order. -/
def noSortFiles (frames : List FrameRecord) : List FrameRecord := frames

/-! ## Configuration (spec §6, header Set/Get macros) -/

/-- Header enum `vtkDICOMReader::RowOrder { FileNative, TopDown, BottomUp }`. -/
inductive RowOrder where
  | FileNative
  | TopDown
  | BottomUp
  deriving DecidableEq

/-- The reader configuration (spec §6: desired stack identifier, sorting
enabled/disabled, row-order policy, auto-rescale, auto-YBR-to-RGB, spacing
tolerance). -/
structure Config where
  sorting : Bool
  desiredStackID : String
  autoRescale : Bool
  autoYBRToRGB : Bool
  memoryRowOrder : RowOrder
  tolerance : ℚ
  deriving DecidableEq

/-! ## Structure Validator (spec §4.2, header `ValidateStructure`) -/

/-- The (file index, frame index) pair a slice refers back to. -/
def sliceKey (f : FrameRecord) : Nat × Nat := (f.fileIdx, f.frameIdx)

/-- The distinct acquisition/trigger times present, in order of first
occurrence; each distinct time is one time step. -/
def distinctTimes (slices : List FrameRecord) : List ℚ :=
  (slices.map (fun f => f.time)).dedup

/-- Number of frames belonging to one time step. -/
def framesAtTime (slices : List FrameRecord) (t : ℚ) : Nat :=
  (slices.filter (fun f => decide (f.time = t))).length

/-- Modelled from the spec: validator condition (a) of §4.2 — "the number
of frames per time step is constant across all time steps" (the body of
`vtkDICOMReader::ValidateStructure` is not in `src/`). -/
def framesPerStepConstant (slices : List FrameRecord) : Bool :=
  match distinctTimes slices with
  | [] => true
  | t0 :: ts => ts.all (fun t => decide (framesAtTime slices t = framesAtTime slices t0))

/-- The distinct spatial positions (normal-axis projections) of the sorted
slices, in order of first occurrence. -/
def spatialPositions (slices : List FrameRecord) : List ℚ :=
  (slices.map zproj).dedup

/-- Differences between consecutive entries of a list. -/
def diffs (ps : List ℚ) : List ℚ :=
  List.zipWith (fun a b => b - a) ps ps.tail

/-- Modelled from the spec: validator condition (b) of §4.2 — "spacing
between consecutive spatial positions is uniform within tolerance". -/
def spacingUniform (tol : ℚ) (ps : List ℚ) : Bool :=
  match diffs ps with
  | [] => true
  | d :: ds => ds.all (fun e => decide (|e - d| ≤ tol))

/-- Modelled from the spec: validator condition (c) of §4.2 — "all frames
share identical rows/columns/samples-per-pixel/bit-depth". -/
def photometricConsistent (slices : List FrameRecord) : Bool :=
  match slices with
  | [] => true
  | s :: rest => rest.all (fun r =>
      decide (r.rows = s.rows ∧ r.cols = s.cols ∧ r.samples = s.samples ∧ r.bits = s.bits))

/-- Modelled from the spec: validator condition (d) of §4.2 — "no
(file, frame) pair is referenced more than once". -/
def noDuplicateFrames (slices : List FrameRecord) : Bool :=
  decide ((slices.map sliceKey).Nodup)

/-- Modelled from the spec: `vtkDICOMReader::ValidateStructure` (body not
in `src/`); header: "Verify that the files can be composed into a volume
... It should invoke an error event and return zero upon failure."  The
validator only reads the sorted arrays; it returns a verdict and modifies
nothing. -/
def validateStructure (tol : ℚ) (slices : List FrameRecord) : Bool :=
  framesPerStepConstant slices &&
  spacingUniform tol (spatialPositions slices) &&
  photometricConsistent slices &&
  noDuplicateFrames slices

/-! ## Metadata phase (spec §4.6, header `RequestInformation`) -/

/-- Error kinds of spec §7, each tagged with its originating stage. -/
inductive EngineError where
  | parseError (fileIdx : Nat)
  | structureError
  | decodeError (fileIdx : Nat) (frameIdx : Nat)
  | configurationError
  deriving DecidableEq

/-- The volume geometry derived by the Geometry Builder (spec §4.5): the
patient-space frame comes from the first sorted slice, the slice spacing
from the resolved position differences. -/
structure VolumeGeometry where
  rows : Nat
  cols : Nat
  numSlices : Nat
  origin : Vec3
  rowDir : Vec3
  colDir : Vec3
  sliceSpacing : ℚ
  deriving DecidableEq

/-- Modelled from the spec: the Geometry Builder (spec §4.5: "derive a 4×4
patient-space affine matrix from the orientation and position attributes
of the first sorted slice and the resolved spacing"). -/
def buildGeometry (slices : List FrameRecord) : VolumeGeometry :=
  match slices with
  | [] => { rows := 0, cols := 0, numSlices := 0, origin := (0, 0, 0),
            rowDir := (1, 0, 0), colDir := (0, 1, 0), sliceSpacing := 1 }
  | f :: _ =>
      { rows := f.rows, cols := f.cols,
        numSlices := (spatialPositions slices).length,
        origin := f.pos, rowDir := f.orientRow, colDir := f.orientCol,
        sliceSpacing :=
          match diffs (spatialPositions slices) with
          | [] => 1
          | d :: _ => d }

/-- Modelled from the spec: the harmonized rescale pair, "the first
observed" (spec §4.4); (1, 0) when there are no slices. -/
def targetRescale (slices : List FrameRecord) : ℚ × ℚ :=
  match slices with
  | [] => (1, 0)
  | f :: _ => (f.slope, f.intercept)

/-- The metadata-phase output (spec §6): index arrays, geometry, rescale
parameters, stack identifiers. -/
structure MetadataResult where
  sliceToFile : List Nat
  sliceToFrame : List Nat
  geometry : VolumeGeometry
  rescaleSlope : ℚ
  rescaleIntercept : ℚ
  stackIDs : List String
  deriving DecidableEq

/-- The sorted slice list the engine presents to the validator: the sorted
active stack when sorting is enabled, the exact input order otherwise. -/
def engineSorted (cfg : Config) (frames : List FrameRecord) : List FrameRecord :=
  if cfg.sorting then sortFiles cfg.desiredStackID frames else noSortFiles frames

/-- True when an explicitly requested stack identifier is absent from the
input (spec §7 ConfigurationError). -/
def stackMissing (cfg : Config) (frames : List FrameRecord) : Prop :=
  cfg.desiredStackID ≠ "" ∧
    frames.all (fun f => decide (f.stackId ≠ cfg.desiredStackID)) = true

instance : ∀ cfg frames, Decidable (stackMissing cfg frames) := fun cfg frames => by
  unfold stackMissing; infer_instance

/-- Modelled from the spec: the metadata phase of
`vtkDICOMReader::RequestInformation` (body not in `src/`), spec §4.6:
resolve the active stack, sort (or not), validate, build geometry and the
harmonized rescale parameters; any failure aborts with the stage's
error. -/
def metadataPhase (cfg : Config) (frames : List FrameRecord) :
    Except EngineError MetadataResult :=
  if stackMissing cfg frames then
    .error .configurationError
  else
    let sorted := engineSorted cfg frames
    if validateStructure cfg.tolerance sorted then
      .ok { sliceToFile := sorted.map (fun f => f.fileIdx)
            sliceToFrame := sorted.map (fun f => f.frameIdx)
            geometry := buildGeometry sorted
            rescaleSlope := (targetRescale sorted).1
            rescaleIntercept := (targetRescale sorted).2
            stackIDs := (frames.map (fun f => f.stackId)).dedup }
    else .error .structureError

/-- Engine phases of the state machine of spec §4.6. -/
inductive Phase where
  | uninitialized
  | metadataReady
  | errorState
  deriving DecidableEq

/-- The reader's cached state: phase, cached metadata result, last error
(spec §3 Lifecycle: geometry/rescale/index arrays are computed once per
metadata phase and cached). -/
structure ReaderState where
  phase : Phase
  cached : Option MetadataResult
  lastError : Option EngineError
  deriving DecidableEq

/-- Modelled from the spec: one execution of the metadata phase against
the reader state.  Re-derivation invalidates all previously cached state
(spec §4.6), so the prior state is discarded, not consulted. -/
def runMetadata (cfg : Config) (frames : List FrameRecord)
    (_prior : ReaderState) : ReaderState :=
  match metadataPhase cfg frames with
  | .ok r => { phase := .metadataReady, cached := some r, lastError := none }
  | .error e => { phase := .errorState, cached := none, lastError := some e }

/-! ## Pixel Decoder (spec §4.3, header `UnpackBits`) -/

/-- Modelled from the spec: the 12-bit packer from raw samples to bytes
(the body of `vtkDICOMReader::UnpackBits` is not in `src/`): two 12-bit
samples occupy three bytes in the standard DICOM little-endian packed
layout. -/
def packBits12 : List Nat → List Nat
  | s0 :: s1 :: rest =>
      (s0 % 256) :: (s0 / 256 + s1 % 16 * 16) :: (s1 / 16) :: packBits12 rest
  | _ => []

/-- Modelled from the spec: `vtkDICOMReader::UnpackBits` for 12 bits per
sample (header: "Unpack ... 12 bits to 16 bits"); each packed triple of
bytes yields two 16-bit samples carrying the raw 12-bit values,
uniformly across the whole buffer. -/
def unpackBits12 : List Nat → List Nat
  | b0 :: b1 :: b2 :: rest =>
      (b0 + b1 % 16 * 256) :: (b1 / 16 + b2 * 16) :: unpackBits12 rest
  | _ => []

/-- Modelled from the spec: `vtkDICOMReader::UnpackBits` for 1 bit per
sample (header: "Unpack 1 bit to 8 bits"); every input byte expands to
eight one-byte samples, least significant bit first. -/
def unpackBits1 (bytes : List Nat) : List Nat :=
  bytes.flatMap (fun b =>
    [b % 2, b / 2 % 2, b / 4 % 2, b / 8 % 2,
     b / 16 % 2, b / 32 % 2, b / 64 % 2, b / 128 % 2])

/-! ## Photometric Normalizer (spec §4.4, headers `RescaleBuffer`, `YBRToRGB`) -/

/-- The remap of spec §4.4: a raw value of a slice with parameters
(slopeI, interceptI) re-expressed against the harmonized target pair. -/
def rescaleFormula (slopeT interceptT slopeI interceptI v : ℚ) : ℚ :=
  (v * slopeI + interceptI - interceptT) / slopeT

/-- Modelled from the spec: `vtkDICOMReader::RescaleBuffer` (body not in
`src/`): when auto-rescale is enabled every value of the slice is remapped
by `rescaleFormula`; when disabled the buffer is returned untouched. -/
def rescaleBuffer (cfg : Config) (target : ℚ × ℚ) (sliceSlope sliceIntercept : ℚ)
    (buffer : List ℚ) : List ℚ :=
  if cfg.autoRescale then
    buffer.map (rescaleFormula target.1 target.2 sliceSlope sliceIntercept)
  else buffer

/-- Whether a photometric interpretation attribute denotes a YBR
encoding. -/
def isYBR (photometric : String) : Prop :=
  photometric = "YBR_FULL" ∨ photometric = "YBR_FULL_422" ∨
    photometric = "YBR_PARTIAL_422"

instance : DecidablePred isYBR := fun s => by
  unfold isYBR; infer_instance

/-- Modelled from the spec: the standard luma/chroma-to-RGB transform per
pixel (spec §4.4; the body of `vtkDICOMReader::YBRToRGB` is not in
`src/`).  The pixel is (Y, Cb, Cr) with chroma centred at 128. -/
def ybrToRGBPixel (p : Vec3) : Vec3 :=
  (p.1 + 1402 / 1000 * (p.2.2 - 128),
   p.1 - 344136 / 1000000 * (p.2.1 - 128) - 714136 / 1000000 * (p.2.2 - 128),
   p.1 + 1772 / 1000 * (p.2.1 - 128))

/-- One decoded slice with its recorded photometric interpretation
attribute and its in-memory pixel buffer. -/
structure SliceData where
  photometric : String
  buffer : List Vec3
  deriving DecidableEq

/-- Modelled from the spec: the YBR-to-RGB pass (spec §4.4; header
`AutoYBRToRGB`: "YBR images are always converted to RGB (though the
photometric interpretation in the metadata will remain the same)").  Only
the buffer is rewritten; the metadata attribute is untouched. -/
def applyYBRToRGB (cfg : Config) (s : SliceData) : SliceData :=
  if cfg.autoYBRToRGB = true ∧ isYBR s.photometric then
    { photometric := s.photometric, buffer := s.buffer.map ybrToRGBPixel }
  else s

/-! ## Geometry Builder row order (spec §4.5, header `SetMemoryRowOrder`) -/

/-- The in-plane geometry the row flip must keep consistent: origin of
row 0 and the direction and spacing of increasing rows. -/
structure Geom2D where
  origin : Vec3
  yDir : Vec3
  rowSpacing : ℚ
  deriving DecidableEq

/-- One file's decoded payload: its rows in on-disk order, whether that
native order is top-down, and the in-plane geometry. -/
structure DecodedFile where
  rowsData : List (List ℚ)
  nativeTopDown : Bool
  geom : Geom2D
  deriving DecidableEq

/-- Modelled from the spec: whether the configured row order forces a
flip (spec §4.5: "flipping the decoded buffer ... when the forced order
disagrees with the file's native order"; native preserves the on-disk
order). -/
def needsFlip (policy : RowOrder) (nativeTopDown : Bool) : Bool :=
  match policy with
  | .FileNative => false
  | .TopDown => !nativeTopDown
  | .BottomUp => nativeTopDown

/-- Modelled from the spec: the affine adjustment accompanying a row flip
(spec §4.5: "adjusting the affine matrix's translation/sign
accordingly"): the row direction is negated and the origin moves to the
formerly-last row. -/
def flipGeom (numRows : Nat) (g : Geom2D) : Geom2D :=
  { origin := vadd g.origin (vsmul (((numRows : ℚ) - 1) * g.rowSpacing) g.yDir),
    yDir := vneg g.yDir,
    rowSpacing := g.rowSpacing }

/-- Modelled from the spec: application of the row-order policy to one
decoded file (spec §4.5; the flip "is a buffer-copy operation, not merely
a metadata flag"). -/
def applyRowOrderPolicy (policy : RowOrder) (d : DecodedFile) : DecodedFile :=
  if needsFlip policy d.nativeTopDown then
    { rowsData := d.rowsData.reverse,
      nativeTopDown := d.nativeTopDown,
      geom := flipGeom d.rowsData.length d.geom }
  else d

/-! ## NIFTI reader (header `vtkNIFTIReader.h`) -/

/-- The NIFTI header fields the claims need: `pixdim[0]` (which stores
qfac) and the slice count `dim[3]`. -/
structure NIFTIHeader where
  pixdim0 : ℚ
  dim3 : Nat
  deriving DecidableEq

/-- Modelled from the spec: derivation of QFac from the header (the body
of `vtkNIFTIReader::RequestInformation` is not in `src/`; header doc:
"NIFTI stores a factor called qfac in the header to signal when the
(i,j,k) indices form a left-handed coordinate system.  QFac will only
ever have values of +1 or -1"). -/
def computeQFac (h : NIFTIHeader) : ℚ :=
  if h.pixdim0 < 0 then -1 else 1

/-- The information a successful NIFTI read exposes: QFac and the number
of slices. -/
structure NIFTIInfo where
  qfac : ℚ
  numSlices : Nat
  deriving DecidableEq

/-- Modelled from the spec: the information phase of the NIFTI reader
(body not in `src/`). -/
def niftiReadInfo (h : NIFTIHeader) : NIFTIInfo :=
  { qfac := computeQFac h, numSlices := h.dim3 }

/-- The slice-index correspondence of the header doc of `GetQFac`: "If
QFac is -1, then the VTK slice index J is related to the NIFTI slice
index j by the equation J = (num_slices - j - 1)". -/
def vtkSliceIndex (qfac : ℚ) (numSlices j : Int) : Int :=
  if qfac = -1 then numSlices - j - 1 else j

/-! ## Concrete scenario inputs (spec §8) -/

/-- A single-frame file record with the given file index and z position,
axial orientation (1,0,0)/(0,1,0), and defaults elsewhere. -/
def mkFrame (fi : Nat) (z : ℚ) : FrameRecord :=
  { fileIdx := fi, frameIdx := 0, pos := (0, 0, z),
    orientRow := (1, 0, 0), orientCol := (0, 1, 0),
    time := 0, stackId := "", rows := 2, cols := 2,
    samples := 1, bits := 16, slope := 1, intercept := 0 }

/-- Scenario A of spec §8: three single-frame files at z = 20, 0, 10 in
that input order. -/
def scenarioAFrames : List FrameRecord :=
  [mkFrame 0 20, mkFrame 1 0, mkFrame 2 10]

/-- A permutation of the Scenario A input list (z = 0, 20, 10). -/
def scenarioAPermuted : List FrameRecord :=
  [mkFrame 1 0, mkFrame 0 20, mkFrame 2 10]

/-- A default configuration: sorting enabled, no stack selected, both
normalization passes enabled, bottom-up row order (the header's stated
defaults). -/
def defaultConfig : Config :=
  { sorting := true, desiredStackID := "", autoRescale := true,
    autoYBRToRGB := true, memoryRowOrder := .BottomUp, tolerance := 0 }

/-- Scenario B of spec §8: the configuration selecting stack "STACK1". -/
def cfgB : Config := { defaultConfig with desiredStackID := "STACK1" }

/-- Scenario B: the frame of file 0, tagged "STACK1". -/
def frameB1 : FrameRecord := { mkFrame 0 0 with stackId := "STACK1" }

/-- Scenario B: the frame of file 1, tagged "STACK2". -/
def frameB2 : FrameRecord := { mkFrame 1 0 with stackId := "STACK2" }

/-- Scenario B: a series multiplexing two stacks. -/
def framesB : List FrameRecord := [frameB1, frameB2]

/-- A structure-violating input for the validator: the same (file, frame)
pair referenced twice. -/
def framesDup : List FrameRecord := [mkFrame 0 0, mkFrame 0 0]

/-- A configuration with sorting disabled (pre-sorted input). -/
def cfgNoSort : Config := { defaultConfig with sorting := false }

/-- A pre-sorted two-file input given in caller order z = 10 then z = 0. -/
def framesPreSorted : List FrameRecord := [mkFrame 0 10, mkFrame 1 0]

/-- Scenario D of spec §8: two slices with (slope 1, intercept 0) and
(slope 2, intercept 100). -/
def scenarioDSlices : List FrameRecord :=
  [mkFrame 0 0, { mkFrame 1 10 with slope := 2, intercept := 100 }]

/-- Scenario E of spec §8: a decoded file whose native row order is
bottom-up, with two rows. -/
def scenarioEFile : DecodedFile :=
  { rowsData := [[1, 2], [3, 4]], nativeTopDown := false,
    geom := { origin := (0, 0, 0), yDir := (0, 1, 0), rowSpacing := 1 } }

/-- A decoded YBR slice with one pixel. -/
def ybrSlice : SliceData :=
  { photometric := "YBR_FULL", buffer := [(50, 100, 200)] }

/-- A decoded file whose native row order is top-down (the native DICOM
order per the header), with two rows. -/
def nativeTopDownFile : DecodedFile :=
  { rowsData := [[5, 6], [7, 8]], nativeTopDown := true,
    geom := { origin := (0, 0, 0), yDir := (0, 1, 0), rowSpacing := 1 } }

/-! ## Helper lemmas -/

/-- The normal-axis projection of an axial single-frame file is its z
coordinate. -/
theorem zproj_mkFrame (fi : Nat) (z : ℚ) : zproj (mkFrame fi z) = z := by
  simp [zproj, dot, cross, mkFrame]

theorem mkFrame_stackId (fi : Nat) (z : ℚ) : (mkFrame fi z).stackId = "" := rfl

theorem mkFrame_fileIdx (fi : Nat) (z : ℚ) : (mkFrame fi z).fileIdx = fi := rfl

theorem mkFrame_time (fi : Nat) (z : ℚ) : (mkFrame fi z).time = 0 := rfl

/-- Two sorted lists that are permutations of each other and whose
elements the order separates are equal. -/
theorem sorted_eq_of_perm {α : Type _} (r : α → α → Prop) :
    ∀ (l₁ l₂ : List α), l₁.Sorted r → l₂.Sorted r → l₁.Perm l₂ →
      (∀ a ∈ l₁, ∀ b ∈ l₁, r a b → r b a → a = b) → l₁ = l₂ := by
  intro l₁
  induction l₁ with
  | nil => intro l₂ _ _ hp _; exact hp.nil_eq
  | cons a t₁ ih =>
    intro l₂ hs₁ hs₂ hp hanti
    cases l₂ with
    | nil => exact absurd hp.symm.nil_eq (by simp)
    | cons b t₂ =>
      have hab : a = b := by
        by_cases hcase : a = b
        · exact hcase
        · have hbmem : b ∈ a :: t₁ := hp.symm.subset (List.mem_cons_self b t₂)
          have hamem : a ∈ b :: t₂ := hp.subset (List.mem_cons_self a t₁)
          have hb : b ∈ t₁ := by
            rcases List.mem_cons.mp hbmem with h | h
            · exact absurd h.symm hcase
            · exact h
          have ha : a ∈ t₂ := by
            rcases List.mem_cons.mp hamem with h | h
            · exact absurd h hcase
            · exact h
          have rab : r a b := (List.sorted_cons.mp hs₁).1 b hb
          have rba : r b a := (List.sorted_cons.mp hs₂).1 a ha
          exact hanti a (List.mem_cons_self a t₁) b (List.mem_cons_of_mem a hb) rab rba
      subst hab
      have heq : t₁ = t₂ := ih t₂ (List.sorted_cons.mp hs₁).2 (List.sorted_cons.mp hs₂).2
        hp.cons_inv
        (fun x hx y hy => hanti x (List.mem_cons_of_mem a hx) y (List.mem_cons_of_mem a hy))
      rw [heq]

/-! ## Claim theorems -/

/-- C1: when spatial metadata is present and unambiguous (pairwise
distinct normal-axis positions), the slice sort is order-independent of
the input sequence — every permutation of the input produces the same
canonical slice order; and the concrete Scenario A input (z = 20, 0, 10)
sorts to the SliceToFile sequence [1, 2, 0], the files in ascending z. -/
theorem sort_order_independent :
    (∀ l l' : List FrameRecord, l.Perm l' →
        l.Pairwise (fun a b => zproj a ≠ zproj b) →
        sortFrames l = sortFrames l') ∧
    (sortFiles "" scenarioAFrames).map (fun f => f.fileIdx) = [1, 2, 0] := by
  constructor
  · intro l l' hperm hdist
    have hs₁ := List.sorted_insertionSort frameLE l
    have hs₂ := List.sorted_insertionSort frameLE l'
    have hp : (sortFrames l).Perm (sortFrames l') :=
      ((List.perm_insertionSort frameLE l).trans hperm).trans
        (List.perm_insertionSort frameLE l').symm
    apply sorted_eq_of_perm frameLE _ _ hs₁ hs₂ hp
    intro a ha b hb rab rba
    by_cases hab : a = b
    · exact hab
    · have ha' : a ∈ l := (List.mem_insertionSort frameLE).mp ha
      have hb' : b ∈ l := (List.mem_insertionSort frameLE).mp hb
      have hsymm : Symmetric (fun x y : FrameRecord => zproj x ≠ zproj y) :=
        fun x y hxy e => hxy e.symm
      have hne : zproj a ≠ zproj b := hdist.forall hsymm ha' hb' hab
      rcases rab with h1 | ⟨e1, _⟩
      · rcases rba with h2 | ⟨e2, _⟩
        · exact absurd (h1.trans h2) (lt_irrefl _)
        · exact absurd e2.symm hne
      · exact absurd e1 hne
  · norm_num [sortFiles, sortFrames, stackFrames, activeStackId, firstStackId, scenarioAFrames,
      List.insertionSort, List.orderedInsert, frameLE, zproj_mkFrame, mkFrame_stackId,
      mkFrame_fileIdx, mkFrame_time]

/-- Witness for C1: the sort of the Scenario A input equals the sort of a
permutation of it. -/
theorem sort_order_independent_witness :
    sortFrames scenarioAFrames = sortFrames scenarioAPermuted :=
  sort_order_independent.1 scenarioAFrames scenarioAPermuted
    (by decide) (by simp [scenarioAFrames, List.pairwise_cons, zproj_mkFrame])

/-- C2: the engine resolves the active stack to the explicitly selected
identifier when one is given and to the first stack encountered
otherwise; every (file, frame) pair in the slice index arrays comes from
a frame tagged with the active stack identifier, a frame tagged with a
different identifier never appears in them, and the SliceToFile/
SliceToFrame arrays of a successful metadata phase are exactly those
pairs. -/
theorem stack_selection (cfg : Config) (frames : List FrameRecord)
    (hsort : cfg.sorting = true) :
    (cfg.desiredStackID ≠ "" → activeStackId cfg.desiredStackID frames = cfg.desiredStackID) ∧
    (cfg.desiredStackID = "" → activeStackId cfg.desiredStackID frames = firstStackId frames) ∧
    (∀ p ∈ (engineSorted cfg frames).map sliceKey,
        ∃ f ∈ frames, f.stackId = activeStackId cfg.desiredStackID frames ∧ sliceKey f = p) ∧
    (∀ g ∈ frames, g.stackId ≠ activeStackId cfg.desiredStackID frames →
        (∀ a ∈ frames, ∀ b ∈ frames, sliceKey a = sliceKey b → a = b) →
        sliceKey g ∉ (engineSorted cfg frames).map sliceKey) ∧
    (∀ res, metadataPhase cfg frames = .ok res →
        res.sliceToFile.zip res.sliceToFrame = (engineSorted cfg frames).map sliceKey) := by
  have he : engineSorted cfg frames = sortFiles cfg.desiredStackID frames := by
    simp [engineSorted, hsort]
  have hmem : ∀ f, f ∈ engineSorted cfg frames ↔
      (f ∈ frames ∧ f.stackId = activeStackId cfg.desiredStackID frames) := by
    intro f
    rw [he]
    unfold sortFiles sortFrames stackFrames
    rw [List.mem_insertionSort]
    simp [List.mem_filter]
  refine ⟨fun h => by simp [activeStackId, h], fun h => by simp [activeStackId, h], ?_, ?_, ?_⟩
  · intro p hp
    rcases List.mem_map.mp hp with ⟨f, hf, hkey⟩
    rcases (hmem f).mp hf with ⟨hf1, hf2⟩
    exact ⟨f, hf1, hf2, hkey⟩
  · intro g hg hgs hinj hmemg
    rcases List.mem_map.mp hmemg with ⟨f, hf, hkey⟩
    rcases (hmem f).mp hf with ⟨hf1, hf2⟩
    have : f = g := hinj f hf1 g hg hkey
    exact hgs (this ▸ hf2)
  · intro res hres
    simp only [metadataPhase] at hres
    split at hres
    · exact absurd hres (by simp)
    · split at hres
      · injection hres with h
        subst h
        simp only []
        rw [List.zip_map']
        rfl
      · exact absurd hres (by simp)

/-- Witness for C2: with "STACK1" selected from the two-stack Scenario B
input, the frame tagged "STACK2" is absent from the index arrays. -/
theorem stack_selection_witness :
    sliceKey frameB2 ∉ (engineSorted cfgB framesB).map sliceKey :=
  (stack_selection cfgB framesB rfl).2.2.2.1 frameB2 (by decide) (by decide) (by decide)

/-- C3: a sorted slice set violating any of the validator's four
conditions — (a) frames per time step not constant, (b) spacing not
uniform within tolerance, (c) inconsistent rows/columns/samples/bits,
(d) a (file, frame) pair referenced twice — makes the validator return
failure and the metadata phase abort with a structure error surfaced to
the caller; no metadata result (and hence no repaired slice set) is ever
produced. -/
theorem structure_violation_aborts (cfg : Config) (frames : List FrameRecord)
    (hnc : ¬stackMissing cfg frames)
    (hviol : framesPerStepConstant (engineSorted cfg frames) = false ∨
        spacingUniform cfg.tolerance (spatialPositions (engineSorted cfg frames)) = false ∨
        photometricConsistent (engineSorted cfg frames) = false ∨
        noDuplicateFrames (engineSorted cfg frames) = false) :
    validateStructure cfg.tolerance (engineSorted cfg frames) = false ∧
    metadataPhase cfg frames = .error .structureError ∧
    (∀ res, metadataPhase cfg frames ≠ .ok res) := by
  have hv : validateStructure cfg.tolerance (engineSorted cfg frames) = false := by
    rcases hviol with h | h | h | h <;> simp [validateStructure, h]
  have hm : metadataPhase cfg frames = .error .structureError := by
    simp [metadataPhase, hnc, hv]
  exact ⟨hv, hm, fun res h => by rw [hm] at h; exact absurd h (by simp)⟩

/-- Witness for C3: a slice set referencing (file 0, frame 0) twice makes
the metadata phase abort with a structure error. -/
theorem structure_violation_aborts_witness :
    metadataPhase cfgNoSort framesDup = .error .structureError :=
  (structure_violation_aborts cfgNoSort framesDup (by decide)
    (Or.inr (Or.inr (Or.inr (by decide))))).2.1

/-- C4: with auto-rescale enabled every value v of a slice with
parameters (slopeI, interceptI) is remapped to
(v * slopeI + interceptI - interceptTarget) / slopeTarget; for the
Scenario D volume the target is the first slice's (1, 0) and a raw value
v of the second slice (slope 2, intercept 100) becomes v * 2 + 100. -/
theorem rescale_harmonization (cfg : Config) (hauto : cfg.autoRescale = true) :
    (∀ (target : ℚ × ℚ) (si ii : ℚ) (buf : List ℚ),
        rescaleBuffer cfg target si ii buf =
          buf.map (fun v => (v * si + ii - target.2) / target.1)) ∧
    targetRescale scenarioDSlices = (1, 0) ∧
    (∀ buf : List ℚ,
        rescaleBuffer cfg (targetRescale scenarioDSlices) 2 100 buf =
          buf.map (fun v => v * 2 + 100)) := by
  have hgen : ∀ (target : ℚ × ℚ) (si ii : ℚ) (buf : List ℚ),
      rescaleBuffer cfg target si ii buf =
        buf.map (fun v => (v * si + ii - target.2) / target.1) := by
    intro target si ii buf
    simp [rescaleBuffer, hauto, rescaleFormula]
  refine ⟨hgen, rfl, ?_⟩
  intro buf
  rw [hgen]
  have hfun : (fun v : ℚ => (v * 2 + 100 - (targetRescale scenarioDSlices).2) /
      (targetRescale scenarioDSlices).1) = fun v : ℚ => v * 2 + 100 := by
    funext v
    show (v * 2 + 100 - 0) / 1 = v * 2 + 100
    ring
  rw [hfun]

/-- Witness for C4: the Scenario D remap applied to the raw value 7. -/
theorem rescale_harmonization_witness :
    rescaleBuffer defaultConfig (targetRescale scenarioDSlices) 2 100 [7] =
      List.map (fun v : ℚ => v * 2 + 100) [7] :=
  (rescale_harmonization defaultConfig rfl).2.2 [7]

/-- Every 12-bit raw sample survives the pack/unpack round trip: the
16-bit output samples equal the raw samples, uniformly across the whole
buffer. -/
theorem unpack12_pack12 : ∀ l : List Nat, (∀ s ∈ l, s < 4096) → l.length % 2 = 0 →
    unpackBits12 (packBits12 l) = l
  | [] => fun _ _ => rfl
  | [s] => fun _ h => by simp at h
  | s0 :: s1 :: rest => fun hb hl => by
      have h0 : s0 < 4096 := hb s0 (by simp)
      have h1 : s1 < 4096 := hb s1 (by simp)
      have hl' : rest.length % 2 = 0 := by simp [List.length_cons] at hl; omega
      have ih := unpack12_pack12 rest (fun s hs => hb s (by simp [hs])) hl'
      simp only [packBits12, unpackBits12, ih, List.cons.injEq]
      exact ⟨by omega, by omega, trivial⟩

/-- Every sample unpacked from 12-bit packed bytes fits a 16-bit output
word. -/
theorem unpack12_bounds : ∀ bytes : List Nat, (∀ b ∈ bytes, b < 256) →
    ∀ x ∈ unpackBits12 bytes, x < 65536
  | [] => by intro _ x hx; simp [unpackBits12] at hx
  | [b0] => by intro _ x hx; simp [unpackBits12] at hx
  | [b0, b1] => by intro _ x hx; simp [unpackBits12] at hx
  | b0 :: b1 :: b2 :: rest => by
      intro hb x hx
      simp only [unpackBits12, List.mem_cons] at hx
      have hb0 : b0 < 256 := hb b0 (by simp)
      have hb1 : b1 < 256 := hb b1 (by simp)
      have hb2 : b2 < 256 := hb b2 (by simp)
      rcases hx with h | h | h
      · omega
      · omega
      · exact unpack12_bounds rest (fun b hbm => hb b (by simp [hbm])) x h

/-- Unpacking 1-bit samples yields one byte per packed bit. -/
theorem unpack1_expands : ∀ bytes : List Nat,
    (unpackBits1 bytes).length = 8 * bytes.length ∧ ∀ x ∈ unpackBits1 bytes, x < 256 := by
  intro bytes
  induction bytes with
  | nil => simp [unpackBits1]
  | cons b bs ih =>
    constructor
    · simp only [unpackBits1, List.flatMap_cons, List.length_append, List.length_cons,
        List.length_nil, List.length_map]
      have := ih.1
      simp only [unpackBits1] at this
      simp [this]
      omega
    · intro x hx
      simp only [unpackBits1, List.flatMap_cons, List.mem_append, List.mem_cons] at hx
      have hrest := ih.2
      simp only [unpackBits1] at hrest
      rcases hx with h | h
      · rcases h with h | h | h | h | h | h | h | h | h <;> first | omega | simp at h
      · exact hrest x h

/-- C5: sub-word 12-bit packed samples unpack to 16-bit samples equal to
the raw sample values (the pack/unpack round trip is the identity and all
outputs fit 16 bits), byte-for-byte uniformly across the buffer, and
1-bit packed samples unpack to one byte per sample. -/
theorem unpackBits_correct :
    (∀ l : List Nat, (∀ s ∈ l, s < 4096) → l.length % 2 = 0 →
        unpackBits12 (packBits12 l) = l) ∧
    (∀ bytes : List Nat, (∀ b ∈ bytes, b < 256) → ∀ x ∈ unpackBits12 bytes, x < 65536) ∧
    (∀ bytes : List Nat, (unpackBits1 bytes).length = 8 * bytes.length ∧
        ∀ x ∈ unpackBits1 bytes, x < 256) :=
  ⟨unpack12_pack12, unpack12_bounds, unpack1_expands⟩

/-- Witness for C5: a synthetic two-sample 12-bit pattern (0x123, 0x456)
decodes back to itself. -/
theorem unpackBits_correct_witness :
    unpackBits12 (packBits12 [291, 1110]) = [291, 1110] :=
  unpackBits_correct.1 [291, 1110] (by decide) (by decide)

/-- C6: whenever a forced row order ("top-down" or "bottom-up")
disagrees with the file's native order the decoded buffer is flipped
row-wise — row 0 of the output is the native buffer's last row, the
buffer is the row-wise reversal, and the affine geometry is adjusted
(row direction negated, origin moved to the formerly-last row).  This
covers both disagreement directions: policy "top-down" on a natively
bottom-up file and policy "bottom-up" (the header's default) on a
natively top-down file.  A forced order that agrees with the native
order, and policy "native", leave the file unchanged. -/
theorem rowOrder_policy (d : DecodedFile) :
    (d.nativeTopDown = false →
        (applyRowOrderPolicy .TopDown d).rowsData.head? = d.rowsData.getLast? ∧
        (applyRowOrderPolicy .TopDown d).rowsData = d.rowsData.reverse ∧
        (applyRowOrderPolicy .TopDown d).geom = flipGeom d.rowsData.length d.geom) ∧
    (d.nativeTopDown = true →
        (applyRowOrderPolicy .BottomUp d).rowsData.head? = d.rowsData.getLast? ∧
        (applyRowOrderPolicy .BottomUp d).rowsData = d.rowsData.reverse ∧
        (applyRowOrderPolicy .BottomUp d).geom = flipGeom d.rowsData.length d.geom) ∧
    (d.nativeTopDown = true → applyRowOrderPolicy .TopDown d = d) ∧
    (d.nativeTopDown = false → applyRowOrderPolicy .BottomUp d = d) ∧
    applyRowOrderPolicy .FileNative d = d := by
  refine ⟨fun h => ?_, fun h => ?_, fun h => ?_, fun h => ?_, ?_⟩
  · have hf : needsFlip .TopDown d.nativeTopDown = true := by
      simp [needsFlip, h]
    simp [applyRowOrderPolicy, hf]
  · have hf : needsFlip .BottomUp d.nativeTopDown = true := by
      simp [needsFlip, h]
    simp [applyRowOrderPolicy, hf]
  · have hf : needsFlip .TopDown d.nativeTopDown = false := by
      simp [needsFlip, h]
    simp [applyRowOrderPolicy, hf]
  · have hf : needsFlip .BottomUp d.nativeTopDown = false := by
      simp [needsFlip, h]
    simp [applyRowOrderPolicy, hf]
  · simp [applyRowOrderPolicy, needsFlip]

/-- Witness for C6: Scenario E — a two-row bottom-up file read top-down
has the native last row first — and the dual default path: a two-row
top-down file read bottom-up (the header's default) also has the native
last row first. -/
theorem rowOrder_policy_witness :
    (applyRowOrderPolicy .TopDown scenarioEFile).rowsData.head? =
      scenarioEFile.rowsData.getLast? ∧
    (applyRowOrderPolicy .BottomUp nativeTopDownFile).rowsData.head? =
      nativeTopDownFile.rowsData.getLast? :=
  ⟨((rowOrder_policy scenarioEFile).1 rfl).1,
   ((rowOrder_policy nativeTopDownFile).2.1 rfl).1⟩

/-- C7: with sorting disabled the engine presents the frames in exactly
the caller's input order, so the SliceToFile array of a successful
metadata phase lists the files in input order with no reordering. -/
theorem sorting_disabled_preserves_order (cfg : Config) (frames : List FrameRecord)
    (hsort : cfg.sorting = false) :
    engineSorted cfg frames = frames ∧
    (engineSorted cfg frames).map (fun f => f.fileIdx) = frames.map (fun f => f.fileIdx) ∧
    (∀ res, metadataPhase cfg frames = .ok res →
        res.sliceToFile = frames.map (fun f => f.fileIdx)) := by
  have he : engineSorted cfg frames = frames := by
    simp [engineSorted, hsort, noSortFiles]
  refine ⟨he, by rw [he], ?_⟩
  intro res hres
  simp only [metadataPhase] at hres
  split at hres
  · exact absurd hres (by simp)
  · split at hres
    · injection hres with h
      subst h
      simp only []
      rw [he]
    · exact absurd hres (by simp)

/-- Witness for C7: a pre-sorted two-file input (z = 10 then z = 0) keeps
its caller order when sorting is disabled. -/
theorem sorting_disabled_preserves_order_witness :
    (engineSorted cfgNoSort framesPreSorted).map (fun f => f.fileIdx) =
      framesPreSorted.map (fun f => f.fileIdx) :=
  (sorting_disabled_preserves_order cfgNoSort framesPreSorted rfl).2.1

/-- C8: with YBR-to-RGB conversion enabled on a YBR slice, only the
in-memory pixel buffer is rewritten (per pixel, in place); the recorded
photometric interpretation attribute is unchanged and still describes the
source YBR encoding. -/
theorem ybr_metadata_unchanged (cfg : Config) (s : SliceData)
    (hauto : cfg.autoYBRToRGB = true) (hybr : isYBR s.photometric) :
    (applyYBRToRGB cfg s).photometric = s.photometric ∧
    isYBR (applyYBRToRGB cfg s).photometric ∧
    (applyYBRToRGB cfg s).buffer = s.buffer.map ybrToRGBPixel := by
  have hc : cfg.autoYBRToRGB = true ∧ isYBR s.photometric := ⟨hauto, hybr⟩
  unfold applyYBRToRGB
  rw [if_pos hc]
  exact ⟨rfl, hybr, rfl⟩

/-- Witness for C8: converting a concrete YBR_FULL slice leaves its
photometric interpretation attribute unchanged. -/
theorem ybr_metadata_unchanged_witness :
    (applyYBRToRGB defaultConfig ybrSlice).photometric = ybrSlice.photometric :=
  (ybr_metadata_unchanged defaultConfig ybrSlice rfl (by decide)).1

/-- C9: the metadata phase is deterministic and idempotent — its outcome
does not depend on any previously cached reader state, so running it
twice with identical inputs and configuration produces identical results
(the cached VolumeGeometry, rescale parameters and index arrays
included). -/
theorem metadata_phase_deterministic (cfg : Config) (frames : List FrameRecord)
    (s s' : ReaderState) :
    runMetadata cfg frames s = runMetadata cfg frames s' ∧
    runMetadata cfg frames (runMetadata cfg frames s) = runMetadata cfg frames s ∧
    (runMetadata cfg frames (runMetadata cfg frames s)).cached =
      (runMetadata cfg frames s).cached :=
  ⟨rfl, rfl, rfl⟩

/-- C10: the QFac exposed after reading a NIFTI header is exactly +1 or
-1, and when it is -1 the VTK slice index J relates to the NIFTI slice
index j by J = num_slices - j - 1 (and when +1 the indices agree). -/
theorem qfac_pm_one (h : NIFTIHeader) :
    ((niftiReadInfo h).qfac = 1 ∨ (niftiReadInfo h).qfac = -1) ∧
    (∀ n j : Int, (niftiReadInfo h).qfac = -1 →
        vtkSliceIndex (niftiReadInfo h).qfac n j = n - j - 1) ∧
    (∀ n j : Int, (niftiReadInfo h).qfac = 1 →
        vtkSliceIndex (niftiReadInfo h).qfac n j = j) := by
  by_cases hp : h.pixdim0 < 0
  · have h1 : (niftiReadInfo h).qfac = -1 := by simp [niftiReadInfo, computeQFac, hp]
    refine ⟨Or.inr h1, fun n j _ => ?_, fun n j hcontra => ?_⟩
    · rw [h1]; simp [vtkSliceIndex]
    · rw [h1] at hcontra; norm_num at hcontra
  · have h1 : (niftiReadInfo h).qfac = 1 := by simp [niftiReadInfo, computeQFac, hp]
    refine ⟨Or.inl h1, fun n j hcontra => ?_, fun n j _ => ?_⟩
    · rw [h1] at hcontra; norm_num at hcontra
    · rw [h1]; norm_num [vtkSliceIndex]

/-- Witness for C10: a header with pixdim[0] = -2 yields QFac = -1, and
with 5 slices the NIFTI slice 1 maps to VTK slice 3. -/
theorem qfac_pm_one_witness :
    vtkSliceIndex (niftiReadInfo { pixdim0 := -2, dim3 := 5 }).qfac 5 1 = 3 := by
  rw [(qfac_pm_one { pixdim0 := -2, dim3 := 5 }).2.1 5 1 (by decide)]
  decide

end VtkDicom

